import Mathlib

/-!
# goseal: configuration store, secret builder and process pipeline

A shallow embedding of `config.go`, `config_print.go` and `goseal.go`.
The flag declarations of `main`, `writeConfiguration` and the command
`AddConfig`, which `main` leaves disabled, are outside the embedding.

* Go strings are Lean strings (sequences of Unicode characters; a Go string
  holding valid UTF-8).  Indices into a string are counted in characters; the
  only index the program computes is the position of a `/`, a one-byte
  character, so the slice it selects is the same text.
* A Go function that returns `error` returns `Option GoError` here (`none` is
  `nil`); one that returns `(T, error)` returns `Except GoError T`.
* Everything the program asks of its surroundings (file system, YAML decoder,
  child processes) is answered by a `World`; an answer may depend on the
  requests made so far.  Each request is recorded in a trace of `Effect`s.
* A run-time panic (nil dereference, slice bounds out of range) ends the
  computation with `Outcome.panic`.
-/

namespace Goseal

/-! ## Errors, effects and the surrounding world -/

/-- Go `error` values the program creates or receives. -/
inductive GoError where
  /-- A package-level error variable, created once. -/
  | sentinel (text : String)
  /-- The value of a call `errors.New(text)` inside a function body. -/
  | errorsNew (text : String)
  /-- An error handed back by the operating system, the YAML decoder or a child process. -/
  | foreign (text : String)
  deriving DecidableEq

/-- The method `Error()` of a Go error: its text. -/
def GoError.Error : GoError → String
  | .sentinel t => t
  | .errorsNew t => t
  | .foreign t => t

/-- ErrEmptyFile is returned if the provided file has no content. -/
def ErrEmptyFile : GoError := .sentinel "file content is empty"

/-- One request of the program to its surroundings, as recorded in the trace. -/
inductive Effect where
  | userConfigDir
  | getwd
  | mkdirAll (dir : String)
  | stat (path : String)
  | readFile (path : String)
  | writeFile (path data : String)
  /-- The call `fmt.Println(text)`: text and a newline on standard output. -/
  | fmtPrintln (text : String)
  /-- The builtin `println`: its arguments, space separated, on standard error. -/
  | builtinPrintln (args : List String)
  /-- The call `exec.Command(name, args...)`; `argv` is `name :: args`. -/
  | execCommand (argv : List String)
  | stdoutPipe (argv : List String)
  | start (argv : List String)
  | run (argv : List String)
  | wait (argv : List String)
  deriving DecidableEq

/-- What is known of a child process once it has been waited for. -/
structure ProcResult where
  err : Option GoError
  stdout : String
  stderr : String
  deriving DecidableEq

structure StageConfiguration where
  Name : String
  Cert : String
  BasePath : String
  deriving DecidableEq

structure Configuration where
  Configs : List StageConfiguration
  deriving DecidableEq

/-- A Go `map[string]string`, as the list of its entries. -/
abbrev SecretMap := List (String × String)

/-- The surroundings of one invocation.  Every answer is a function of the
trace of earlier requests, so the world may change as the program acts on it. -/
structure World where
  userConfigDir : List Effect → Except GoError String
  getwd : List Effect → Except GoError String
  mkdirAll : List Effect → String → Option GoError
  /-- The predicate `os.IsExist` on a non-nil error. -/
  isExist : GoError → Bool
  /-- The predicate `os.IsNotExist` on a non-nil error. -/
  isNotExist : GoError → Bool
  /-- The call `os.Stat`; the answer is the `IsDir()` of the file information. -/
  stat : List Effect → String → Except GoError Bool
  readFile : List Effect → String → Except GoError String
  writeFile : List Effect → String → String → Option GoError
  /-- The call `yaml.Unmarshal` into a `Configuration`. -/
  unmarshalConfiguration : String → Except GoError Configuration
  /-- The call `yaml.Unmarshal` into a `map[string]string`. -/
  unmarshalSecrets : String → Except GoError SecretMap
  /-- The order in which a `range` statement visits the entries of a map. -/
  rangeOrder : List Effect → SecretMap → SecretMap
  /-- A `range` over a map visits every entry exactly once. -/
  rangeOrder_perm : ∀ tr m, (rangeOrder tr m).Perm m
  stdoutPipe : List Effect → List String → Option GoError
  start : List Effect → List String → Option GoError
  run : List Effect → List String → ProcResult
  wait : List Effect → List String → ProcResult

/-- How a computation ends: with a value, or with a run-time panic. -/
inductive Outcome (α : Type) where
  | ret (a : α)
  | panic (msg : String)
  deriving DecidableEq

/-- A computation: from the trace so far to an outcome and the extended trace. -/
def Go (α : Type) : Type := List Effect → Outcome α × List Effect

/-- Sequencing; a panic skips what follows. -/
def Go.bind {α β : Type} (m : Go α) (f : α → Go β) : Go β := fun tr =>
  match m tr with
  | (.ret a, tr') => f a tr'
  | (.panic msg, tr') => (.panic msg, tr')

instance : Monad Go where
  pure a := fun tr => (.ret a, tr)
  bind := Go.bind

/-- Raise a run-time panic. -/
def goPanic {α : Type} (msg : String) : Go α := fun tr => (.panic msg, tr)

/-- Record the request `e` and answer it with `answer`, computed from the trace before it. -/
def request {α : Type} (e : Effect) (answer : List Effect → α) : Go α := fun tr =>
  (.ret (answer tr), tr ++ [e])

/-! ## The command-line context (`cli.Context`) -/

/-- The flags that were set on the command line, with their values. -/
structure Context where
  flags : List (String × String)

/-- Whether the flag was set. -/
def Context.IsSet (c : Context) (name : String) : Bool :=
  (c.flags.lookup name).isSome

/-- The value of a string flag, `""` when it was not set. -/
def Context.String (c : Context) (name : String) : String :=
  (c.flags.lookup name).getD ""

/-! ## config.go -/

def configFileName : String := ".goseal"

def Configuration.Patch (c other : Configuration) : Except GoError Configuration :=
  .ok { c with Configs := c.Configs ++ other.Configs }

/-- The loop of `GetStageConfigByName` over the entries still to visit. -/
def GetStageConfigByName.loop (name : String) :
    List StageConfiguration → Except GoError StageConfiguration
  | [] => .error (.errorsNew "not found")
  | v :: rest => if v.Name != name then loop name rest else .ok v

def Configuration.GetStageConfigByName (c : Configuration) (name : String) :
    Except GoError StageConfiguration :=
  GetStageConfigByName.loop name c.Configs

def getGlobalConfigPath (w : World) : Go (Except GoError String) := do
  match ← request .userConfigDir w.userConfigDir with
  | .error err => return .error err
  | .ok userHomeDir => return .ok (userHomeDir ++ "/goseal")

def getLocalConfigPath (w : World) : Go (Except GoError String) :=
  request .getwd w.getwd

def configPath (path : String) : String :=
  path ++ "/" ++ configFileName

def ensureDir (w : World) (dirName : String) : Go (Option GoError) := do
  match ← request (.mkdirAll dirName) (fun tr => w.mkdirAll tr dirName) with
  | none => return none
  | some err =>
    if w.isExist err then
      -- check that the existing path is a directory
      match ← request (.stat dirName) (fun tr => w.stat tr dirName) with
      | .error err => return some err
      | .ok isDir =>
        if !isDir then
          return some (.errorsNew "path exists but is not a directory")
        else
          return none
    else
      return some err

def loadConfigFile (w : World) (path : String) : Go (Except GoError Configuration) := do
  match ← ensureDir w path with
  | some err => return .error err
  | none =>
    let configPath := configPath path
    let info ← request (.stat configPath) (fun tr => w.stat tr configPath)
    let notExist := match info with
      | .error err => w.isNotExist err
      | .ok _ => false
    if notExist then
      return .ok { Configs := [] }
    else
      match info with
      | .error _ => goPanic "invalid memory address or nil pointer dereference"
      | .ok isDir =>
        if isDir then
          return .ok { Configs := [] }
        else
          match ← request (.readFile configPath) (fun tr => w.readFile tr configPath) with
          | .error err => return .error err
          | .ok fileBytes =>
            match w.unmarshalConfiguration fileBytes with
            | .error err => return .error err
            | .ok cfg => return .ok cfg

def load (ps : Go (Except GoError String)) (w : World) :
    Go (Except GoError Configuration) := do
  match ← ps with
  | .error err => return .error err
  | .ok path =>
    match ← loadConfigFile w path with
    | .error err => return .error err
    | .ok cfg => return .ok cfg

def loadConfiguration (w : World) (_c : Context) :
    Go (Except GoError (Configuration × Configuration)) := do
  match ← load (getGlobalConfigPath w) w with
  | .error err => return .error err
  | .ok global =>
    match ← load (getLocalConfigPath w) w with
    | .error err => return .error err
    | .ok localCfg => return .ok (global, localCfg)

def getStageConfigurationByName (w : World) (c : Context) (configName : String) :
    Go (Except GoError StageConfiguration) := do
  match ← loadConfiguration w c with
  | .error err => return .error err
  | .ok (g, l) =>
    match g.Patch l with
    | .error err => return .error err
    | .ok cfg => return cfg.GetStageConfigByName configName

/-- The call `strings.LastIndex` on character lists: the position of the last
occurrence of `substr` in the list, or `-1`. -/
def LastIndex.chars (substr : List Char) : List Char → Int
  | [] => if substr = [] then 0 else -1
  | c :: cs =>
    let r := LastIndex.chars substr cs
    if 0 ≤ r then r + 1
    else if (c :: cs).take substr.length = substr then 0
    else -1

/-- The call `strings.LastIndex(s, substr)`: the index of the last instance of
`substr` in `s`, or `-1` if `substr` is not present in `s`. -/
def LastIndex (s substr : String) : Int :=
  LastIndex.chars substr.data s.data

/-- The slice expression `s[:i]`; it panics when `i` is out of range. -/
def sliceTo (s : String) (i : Int) : Go String :=
  if 0 ≤ i ∧ i ≤ s.length then
    pure ⟨s.data.take i.toNat⟩
  else
    goPanic "slice bounds out of range"

def ensureDirForFile (w : World) (file : String) : Go (Option GoError) := do
  let i := LastIndex file "/"
  let dirPath ← sliceTo file i
  ensureDir w dirPath

/-! ## config_print.go -/

def StageConfiguration.Print (sc : StageConfiguration) : Go Unit := do
  request (.builtinPrintln ["name: ", sc.Name]) (fun _ => ())
  request (.builtinPrintln ["cert: ", sc.Cert]) (fun _ => ())
  request (.builtinPrintln ["basepath: ", sc.BasePath]) (fun _ => ())

/-- The printing loop of `PrintConfig` from index `i` on. -/
def PrintConfig.loop : Nat → List StageConfiguration → Go Unit
  | _, [] => pure ()
  | i, sc :: rest => do
    if i > 0 then
      request (.builtinPrintln ["----------------"]) (fun _ => ())
    sc.Print
    PrintConfig.loop (i + 1) rest

def PrintConfig (w : World) (c : Context) : Go (Option GoError) := do
  match ← loadConfiguration w c with
  | .error err => return some err
  | .ok (global, localCfg) =>
    if c.IsSet "global" then
      match global.Patch localCfg with
      | .error err => return some err
      | .ok cfg =>
        PrintConfig.loop 0 cfg.Configs
        return none
    else
      PrintConfig.loop 0 localCfg.Configs
      return none

/-! ## goseal.go -/

/-- The builtin `len` on a string or byte slice: its length in bytes. -/
def len (s : String) : Nat := s.utf8ByteSize

/-- The predicate `unicode.IsSpace`: the white space characters of Unicode. -/
def isSpace (c : Char) : Bool :=
  let n := c.toNat
  (9 ≤ n ∧ n ≤ 13) ∨ n = 32 ∨ n = 0x85 ∨ n = 0xA0 ∨ n = 0x1680 ∨
  (0x2000 ≤ n ∧ n ≤ 0x200A) ∨ n = 0x2028 ∨ n = 0x2029 ∨ n = 0x202F ∨
  n = 0x205F ∨ n = 0x3000

/-- The call `strings.TrimSpace`: all leading and trailing white space removed. -/
def TrimSpace (s : String) : String :=
  ⟨((s.data.dropWhile isSpace).reverse.dropWhile isSpace).reverse⟩

/-- The call `strings.Join(elems, sep)`. -/
def Join : List String → String → String
  | [], _ => ""
  | [a], _ => a
  | a :: b :: rest, sep => a ++ sep ++ Join (b :: rest) sep

/-- A command as `exec.Command` builds it: `Args` holds the command name
followed by its arguments. -/
structure Cmd where
  Args : List String
  deriving DecidableEq

/-- The call `exec.Command(name, arg...)`. -/
def execCommand (name : String) (arg : List String) : Go Cmd :=
  request (.execCommand (name :: arg)) (fun _ => { Args := name :: arg })

def handleConfig (w : World) (c : Context) (outPath certPath : String) :
    Go (Option GoError × String × String) := do
  if c.IsSet "config" then
    let configName := c.String "config"
    match ← getStageConfigurationByName w c configName with
    | .error err => return (some err, outPath, certPath)
    | .ok cfg =>
      -- TODO path join
      return (none, cfg.BasePath ++ "/" ++ outPath, cfg.Cert)
  else
    return (none, outPath, certPath)

/-- retrieve a printable error text from cmd errors -/
def getErrText (err : GoError) (cmdArgs : List String) (stdErr : String) : String :=
  let text := "command '" ++ Join cmdArgs " " ++ "' failed: " ++ err.Error
  let errText := TrimSpace stdErr
  if len errText > 0 then
    text ++ "\n" ++ errText
  else
    text

/-- Run the command to completion.  The second component is what the process
wrote to the buffer attached to `cmd.Stdout`. -/
def runCommand (w : World) (cmd : Cmd) : Go (Option GoError × String) := do
  let res ← request (.run cmd.Args) (fun tr => w.run tr cmd.Args)
  match res.err with
  | some err => return (some (.errorsNew (getErrText err cmd.Args res.stderr)), res.stdout)
  | none => return (none, res.stdout)

/-- The loop of `getCreateSecretFileCmd` over the entries in the order visited. -/
def getCreateSecretFileCmd.loop (args : List String) : SecretMap → List String
  | [] => args
  | (k, v) :: rest =>
    getCreateSecretFileCmd.loop (args ++ ["--from-literal=" ++ k ++ "=" ++ v]) rest

def getCreateSecretFileCmd (w : World) (secrets : SecretMap)
    (secretName namespaceName : String) : Go Cmd := do
  let args := [
    "create",
    "secret",
    "generic",
    secretName,
    "-n",
    namespaceName,
    "--dry-run",
    "-o",
    "yaml"]
  let visited ← (fun tr => (.ret (w.rangeOrder tr secrets), tr) : Go SecretMap)
  let args := getCreateSecretFileCmd.loop args visited
  execCommand "kubectl" args

/-- The tail shared by `createSecret` and `sealSecret`: print or write the output. -/
def emitOutput (w : World) (outPath stdout : String) : Go (Option GoError) := do
  if outPath = "" then
    request (.fmtPrintln stdout) (fun _ => ())
    return none
  else
    request (.writeFile outPath stdout) (fun tr => w.writeFile tr outPath stdout)

/-- runs the kubectl create secret command and prints the output to stdout. -/
def createSecret (w : World) (secrets : SecretMap)
    (secretName namespaceName outPath : String) : Go (Option GoError) := do
  let kubectlCreateSecret ← getCreateSecretFileCmd w secrets secretName namespaceName
  match ← runCommand w kubectlCreateSecret with
  | (some err, _) => return some err
  | (none, stdout) => emitOutput w outPath stdout

/-- runs the kubectl create secret command, pipes the output to the kubeseal
command and prints the output to stdout. -/
def sealSecret (w : World) (secrets : SecretMap)
    (secretName namespaceName certPath outPath : String) : Go (Option GoError) := do
  let kubectlCreateSecret ← getCreateSecretFileCmd w secrets secretName namespaceName
  let kubeseal ← execCommand "kubeseal" ["--format", "yaml", "--cert", certPath]
  -- Get stdout of first command and attach it to stdin of second command.
  match ← request (.stdoutPipe kubectlCreateSecret.Args)
      (fun tr => w.stdoutPipe tr kubectlCreateSecret.Args) with
  | some err => return some err
  | none =>
    match ← request (.start kubeseal.Args) (fun tr => w.start tr kubeseal.Args) with
    | some err => return some err
    | none =>
      match ← runCommand w kubectlCreateSecret with
      | (some err, _) => return some err
      | (none, _) =>
        let res ← request (.wait kubeseal.Args) (fun tr => w.wait tr kubeseal.Args)
        match res.err with
        | some err => return some (.errorsNew (getErrText err kubeseal.Args res.stderr))
        | none => emitOutput w outPath res.stdout

/-- Yaml is a cli command -/
def Yaml (w : World) (c : Context) : Go (Option GoError) := do
  let filePath := c.String "file"
  let namespaceName := c.String "namespace"
  let secretName := c.String "secret-name"
  let certPath := c.String "cert"
  let outFilenamePath := c.String "out"
  match ← handleConfig w c outFilenamePath certPath with
  | (some err, _, _) => return some err
  | (none, outFilenamePath, certPath) =>
    match ← request (.readFile filePath) (fun tr => w.readFile tr filePath) with
    | .error err => return some err
    | .ok file =>
      if len file == 0 then
        return some ErrEmptyFile
      else
        match w.unmarshalSecrets file with
        | .error err => return some err
        | .ok secrets =>
          match ← ensureDirForFile w outFilenamePath with
          | some err => return some err
          | none =>
            if certPath != "" then
              sealSecret w secrets secretName namespaceName certPath outFilenamePath
            else
              createSecret w secrets secretName namespaceName outFilenamePath

/-- File is a cli command -/
def File (w : World) (c : Context) : Go (Option GoError) := do
  let filePath := c.String "file"
  let secretKey := c.String "key"
  let namespaceName := c.String "namespace"
  let secretName := c.String "secret-name"
  let certPath := c.String "cert"
  let outFilenamePath := c.String "out"
  match ← handleConfig w c outFilenamePath certPath with
  | (some err, _, _) => return some err
  | (none, outFilenamePath, certPath) =>
    match ← request (.readFile filePath) (fun tr => w.readFile tr filePath) with
    | .error err => return some err
    | .ok file =>
      if len file == 0 then
        return some ErrEmptyFile
      else
        let secrets : SecretMap := [(secretKey, file)]
        match ← ensureDirForFile w outFilenamePath with
        | some err => return some err
        | none =>
          if certPath != "" then
            sealSecret w secrets secretName namespaceName certPath outFilenamePath
          else
            createSecret w secrets secretName namespaceName outFilenamePath

/-! ## Notions used in the statements -/

/-- The argument that `getCreateSecretFileCmd` adds for one entry of the map. -/
def fromLiteral (kv : String × String) : String :=
  "--from-literal=" ++ kv.1 ++ "=" ++ kv.2

deriving instance DecidableEq for Except

/-- The requests made while the configuration files are loaded. -/
def Effect.isConfigLoad : Effect → Bool
  | .userConfigDir => true
  | .getwd => true
  | .mkdirAll _ => true
  | .stat _ => true
  | .readFile _ => true
  | _ => false

/-- The requests that put the result out: a file written or a text printed. -/
def Effect.isOutput : Effect → Bool
  | .writeFile _ _ => true
  | .fmtPrintln _ => true
  | _ => false

/-- The computation `m` extends the trace, and only by requests that satisfy `p`. -/
def OnlyRequests (p : Effect → Bool) {α : Type} (m : Go α) : Prop :=
  ∀ tr, ∃ ext, (m tr).2 = tr ++ ext ∧ ∀ e ∈ ext, p e = true

/-! ## Example surroundings, used to evaluate the program on concrete inputs -/

/-- The text of a configuration file holding the one stage `prod`. -/
def exampleGlobalText : String :=
  "configs:\n- name: prod\n  cert: /certs/prod.pem\n  basePath: /out/prod\n"

/-- The text of a configuration file holding another stage named `prod`. -/
def exampleLocalText : String :=
  "configs:\n- name: prod\n  cert: /local/prod.pem\n  basePath: /local/out\n"

def exampleGlobal : Configuration :=
  { Configs := [{ Name := "prod", Cert := "/certs/prod.pem", BasePath := "/out/prod" }] }

def exampleLocal : Configuration :=
  { Configs := [{ Name := "prod", Cert := "/local/prod.pem", BasePath := "/local/out" }] }

/-- A world with user configuration directory `/home/u/.config` and working
directory `/work`.  The global configuration file holds `exampleGlobalText`;
the local one holds `localText`, or is absent when `localText` is `none`.
`secrets.yaml` holds one key, `empty.yaml` is empty.  Directories can always
be created, every process starts, the first process run succeeds with output
`kubectlOut`, and waiting for the started process gives `sealed`. -/
def exampleWorld (localText : Option String) (kubectlOut : String)
    (sealed : ProcResult) : World where
  userConfigDir := fun _ => .ok "/home/u/.config"
  getwd := fun _ => .ok "/work"
  mkdirAll := fun _ _ => none
  isExist := fun _ => false
  isNotExist := fun err => err = .foreign "no such file or directory"
  stat := fun _ path =>
    if path = "/home/u/.config/goseal/.goseal" then .ok false
    else if path = "/work/.goseal" ∧ localText.isSome then .ok false
    else .error (.foreign "no such file or directory")
  readFile := fun _ path =>
    if path = "/home/u/.config/goseal/.goseal" then .ok exampleGlobalText
    else if path = "/work/.goseal" then
      match localText with
      | some t => .ok t
      | none => .error (.foreign "no such file or directory")
    else if path = "secrets.yaml" then .ok "password: s3cr3t\n"
    else if path = "empty.yaml" then .ok ""
    else .error (.foreign "no such file or directory")
  writeFile := fun _ _ _ => none
  unmarshalConfiguration := fun text =>
    if text = exampleGlobalText then .ok exampleGlobal
    else if text = exampleLocalText then .ok exampleLocal
    else .error (.foreign "yaml: unmarshal errors")
  unmarshalSecrets := fun text =>
    if text = "password: s3cr3t\n" then .ok [("password", "s3cr3t")]
    else .error (.foreign "yaml: unmarshal errors")
  rangeOrder := fun _ m => m
  rangeOrder_perm := fun _ m => List.Perm.refl m
  stdoutPipe := fun _ _ => none
  start := fun _ _ => none
  run := fun _ _ => { err := none, stdout := kubectlOut, stderr := "" }
  wait := fun _ _ => sealed

/-- A sealing process that ends well, with the sealed manifest on its output. -/
def sealedOk : ProcResult :=
  { err := none, stdout := "kind: SealedSecret\n", stderr := "" }

/-- A sealing process that fails and complains on its standard error. -/
def sealedFailed : ProcResult :=
  { err := some (.foreign "exit status 1"), stdout := "",
    stderr := "  error: cannot read certificate\n" }

/-- The requests made by a stage lookup in the example world without a local
configuration file. -/
def exampleLookupTrace : List Effect :=
  [.userConfigDir, .mkdirAll "/home/u/.config/goseal", .stat "/home/u/.config/goseal/.goseal",
    .readFile "/home/u/.config/goseal/.goseal", .getwd, .mkdirAll "/work",
    .stat "/work/.goseal"]

/-- The context of `--config prod --out secret.yaml --cert cli.pem`. -/
def exampleStageContext : Context :=
  { flags := [("namespace", "ns1"), ("file", "secrets.yaml"), ("secret-name", "app-secret"),
      ("cert", "cli.pem"), ("out", "secret.yaml"), ("config", "prod")] }

/-- The context of an invocation without `--config`, `--cert` and `--out`. -/
def examplePlainContext : Context :=
  { flags := [("namespace", "ns1"), ("file", "secrets.yaml"), ("secret-name", "app-secret")] }

/-- The example world in which the global and the local configuration file
both define a stage `prod`. -/
def exampleWorldBoth : World :=
  exampleWorld (some exampleLocalText) "" sealedOk

/-- The requests made by loading both configuration files in `exampleWorldBoth`. -/
def exampleLoadBothTrace : List Effect :=
  [.userConfigDir, .mkdirAll "/home/u/.config/goseal", .stat "/home/u/.config/goseal/.goseal",
    .readFile "/home/u/.config/goseal/.goseal", .getwd, .mkdirAll "/work",
    .stat "/work/.goseal", .readFile "/work/.goseal"]

/-- The context of the `file` action without `--config`, `--cert` and `--out`. -/
def exampleFileContext : Context :=
  { flags := [("namespace", "ns1"), ("file", "secrets.yaml"), ("secret-name", "app-secret"),
      ("key", "password")] }

/-- The context of `--cert cert.pem --out out.yaml`. -/
def exampleSealContext : Context :=
  { flags := [("namespace", "ns1"), ("file", "secrets.yaml"), ("secret-name", "app-secret"),
      ("cert", "cert.pem"), ("out", "out.yaml")] }

/-- The context of `--config nosuch` on the empty input file `empty.yaml`. -/
def exampleMissingStageContext : Context :=
  { flags := [("namespace", "ns1"), ("file", "empty.yaml"), ("secret-name", "app-secret"),
      ("key", "password"), ("config", "nosuch")] }

/-- The context of `--config prod --out secret.yaml` on the empty input file `empty.yaml`. -/
def exampleEmptyFileContext : Context :=
  { flags := [("namespace", "ns1"), ("file", "empty.yaml"), ("secret-name", "app-secret"),
      ("key", "password"), ("out", "secret.yaml"), ("config", "prod")] }

/-! ## Lemmas on the monad -/

theorem Go.bind_eq {α β : Type} (m : Go α) (f : α → Go β) (tr : List Effect) :
    (m >>= f) tr = match m tr with
      | (.ret a, tr') => f a tr'
      | (.panic msg, tr') => (.panic msg, tr') := rfl

theorem Go.bind_ret {α β : Type} (m : Go α) (f : α → Go β) (tr tr' : List Effect) (a : α)
    (h : m tr = (.ret a, tr')) : (m >>= f) tr = f a tr' := by
  rw [Go.bind_eq, h]

theorem Go.bind_panic {α β : Type} (m : Go α) (f : α → Go β) (tr tr' : List Effect)
    (msg : String) (h : m tr = (.panic msg, tr')) : (m >>= f) tr = (.panic msg, tr') := by
  rw [Go.bind_eq, h]

theorem Go.pure_eq {α : Type} (a : α) (tr : List Effect) :
    (pure a : Go α) tr = (.ret a, tr) := rfl

theorem request_eq {α : Type} (e : Effect) (answer : List Effect → α) (tr : List Effect) :
    request e answer tr = (.ret (answer tr), tr ++ [e]) := rfl

/-! ## Lemmas on the configuration store -/

theorem GetStageConfigByName.loop_nil (n : String) :
    GetStageConfigByName.loop n [] = .error (.errorsNew "not found") := rfl

theorem GetStageConfigByName.loop_cons_eq (n : String) (v : StageConfiguration)
    (rest : List StageConfiguration) (h : v.Name = n) :
    GetStageConfigByName.loop n (v :: rest) = .ok v := by
  simp [GetStageConfigByName.loop, h]

theorem GetStageConfigByName.loop_cons_ne (n : String) (v : StageConfiguration)
    (rest : List StageConfiguration) (h : v.Name ≠ n) :
    GetStageConfigByName.loop n (v :: rest) = GetStageConfigByName.loop n rest := by
  simp [GetStageConfigByName.loop, h]

/-- The scan either finds no entry of the name and fails, or returns the entry
at the least index that carries the name. -/
theorem GetStageConfigByName.loop_spec (n : String) (l : List StageConfiguration) :
    ((∀ v ∈ l, v.Name ≠ n) ∧
        GetStageConfigByName.loop n l = .error (.errorsNew "not found")) ∨
    (∃ (i : Nat) (v : StageConfiguration), l[i]? = some v ∧ v.Name = n ∧
        (∀ (j : Nat) (u : StageConfiguration), j < i → l[j]? = some u → u.Name ≠ n) ∧
        GetStageConfigByName.loop n l = .ok v) := by
  induction l with
  | nil => left; simp [GetStageConfigByName.loop_nil]
  | cons x xs ih =>
    by_cases hx : x.Name = n
    · right
      refine ⟨0, x, by simp, hx, ?_, GetStageConfigByName.loop_cons_eq n x xs hx⟩
      intro j u hj
      omega
    · rw [GetStageConfigByName.loop_cons_ne n x xs hx]
      rcases ih with ⟨hall, herr⟩ | ⟨i, v, hi, hv, hmin, hok⟩
      · left
        refine ⟨?_, herr⟩
        intro v hv
        rcases List.mem_cons.mp hv with rfl | hv
        · exact hx
        · exact hall v hv
      · right
        refine ⟨i + 1, v, by simpa using hi, hv, ?_, hok⟩
        intro j u hj hu
        cases j with
        | zero =>
          simp at hu
          subst hu
          exact hx
        | succ j =>
          simp at hu
          exact hmin j u (by omega) hu

/-- A scan of `a ++ b` is the scan of `a` when `a` has the name. -/
theorem GetStageConfigByName.loop_append_left (n : String)
    (a b : List StageConfiguration) (h : ∃ v ∈ a, v.Name = n) :
    GetStageConfigByName.loop n (a ++ b) = GetStageConfigByName.loop n a := by
  induction a with
  | nil => simp at h
  | cons x xs ih =>
    by_cases hx : x.Name = n
    · simp [GetStageConfigByName.loop, hx]
    · have h2 : ∃ v ∈ xs, v.Name = n := by
        obtain ⟨v, hv, hn⟩ := h
        rcases List.mem_cons.mp hv with rfl | hv
        · exact absurd hn hx
        · exact ⟨v, hv, hn⟩
      simp [GetStageConfigByName.loop, hx, ih h2]

/-- A scan of `a ++ b` is the scan of `b` when `a` lacks the name. -/
theorem GetStageConfigByName.loop_append_right (n : String)
    (a b : List StageConfiguration) (h : ∀ v ∈ a, v.Name ≠ n) :
    GetStageConfigByName.loop n (a ++ b) = GetStageConfigByName.loop n b := by
  induction a with
  | nil => simp
  | cons x xs ih =>
    have hx : x.Name ≠ n := h x (List.mem_cons_self x xs)
    have h2 : ∀ v ∈ xs, v.Name ≠ n := fun v hv => h v (List.mem_cons_of_mem x hv)
    simp [GetStageConfigByName.loop, hx, ih h2]

/-- The scan fails exactly when no entry carries the name. -/
theorem GetStageConfigByName.loop_error_iff (n : String) (l : List StageConfiguration) :
    GetStageConfigByName.loop n l = .error (.errorsNew "not found") ↔
      ∀ v ∈ l, v.Name ≠ n := by
  constructor
  · intro herr
    rcases GetStageConfigByName.loop_spec n l with ⟨hall, _⟩ | ⟨i, v, _, _, _, hok⟩
    · exact hall
    · rw [hok] at herr
      cases herr
  · intro hall
    rcases GetStageConfigByName.loop_spec n l with ⟨_, herr⟩ | ⟨i, v, hi, hv, _, _⟩
    · exact herr
    · exact absurd hv (hall v (List.getElem?_mem hi))

/-! ## Claims on the configuration store -/

/-- C1: `GetStageConfigByName` returns the entry of `c.Configs` with the
smallest index whose `Name` equals `n`, when there is one, and it returns the
error "not found" if and only if no entry of `c.Configs` has `Name` equal
to `n`. -/
theorem GetStageConfigByName_first_match (c : Configuration) (n : String) :
    ((∃ v ∈ c.Configs, v.Name = n) →
      ∃ (i : Nat) (v : StageConfiguration), c.Configs[i]? = some v ∧ v.Name = n ∧
        (∀ (j : Nat) (u : StageConfiguration), j < i →
          c.Configs[j]? = some u → u.Name ≠ n) ∧
        c.GetStageConfigByName n = .ok v) ∧
    (c.GetStageConfigByName n = .error (.errorsNew "not found") ↔
      ∀ v ∈ c.Configs, v.Name ≠ n) := by
  refine ⟨?_, GetStageConfigByName.loop_error_iff n c.Configs⟩
  rintro ⟨v, hv, hn⟩
  rcases GetStageConfigByName.loop_spec n c.Configs with ⟨hall, _⟩ | h
  · exact absurd hn (hall v hv)
  · exact h

/-- C2: `base.Patch overlay` returns no error and the configuration whose
entries are those of `base` followed by those of `overlay`: the length is the
sum of the lengths, position `i` of `base` stays at `i`, position `i` of
`overlay` moves to `len(base) + i`, and nothing is dropped, whatever the names. -/
theorem Patch_appends (base overlay : Configuration) :
    ∃ p, base.Patch overlay = .ok p ∧
      p.Configs = base.Configs ++ overlay.Configs ∧
      p.Configs.length = base.Configs.length + overlay.Configs.length ∧
      (∀ i : Nat, i < base.Configs.length → p.Configs[i]? = base.Configs[i]?) ∧
      (∀ i : Nat, p.Configs[base.Configs.length + i]? = overlay.Configs[i]?) ∧
      (∀ v, p.Configs.count v = base.Configs.count v + overlay.Configs.count v) := by
  refine ⟨{ Configs := base.Configs ++ overlay.Configs }, rfl, rfl, by simp, ?_, ?_, ?_⟩
  · intro i hi
    simp [List.getElem?_append_left hi]
  · intro i
    simp [List.getElem?_append_right]
  · intro v
    simp [List.count_append]

/-- C10: lookup distributes over `Patch`.  The lookup of `n` in `a.Patch(b)` is
the lookup in `a` when `a` has an entry named `n` and the lookup in `b`
otherwise, and it is "not found" exactly when it is so in both `a` and `b`. -/
theorem lookup_distributes_over_Patch (a b : Configuration) (n : String) :
    ∃ p, a.Patch b = .ok p ∧
      ((∃ v ∈ a.Configs, v.Name = n) →
        p.GetStageConfigByName n = a.GetStageConfigByName n) ∧
      ((∀ v ∈ a.Configs, v.Name ≠ n) →
        p.GetStageConfigByName n = b.GetStageConfigByName n) ∧
      (p.GetStageConfigByName n = .error (.errorsNew "not found") ↔
        a.GetStageConfigByName n = .error (.errorsNew "not found") ∧
        b.GetStageConfigByName n = .error (.errorsNew "not found")) := by
  refine ⟨{ Configs := a.Configs ++ b.Configs }, rfl, ?_, ?_, ?_⟩
  · exact GetStageConfigByName.loop_append_left n a.Configs b.Configs
  · exact GetStageConfigByName.loop_append_right n a.Configs b.Configs
  · simp only [Configuration.GetStageConfigByName, GetStageConfigByName.loop_error_iff]
    simp only [List.mem_append]
    constructor
    · intro h
      exact ⟨fun v hv => h v (Or.inl hv), fun v hv => h v (Or.inr hv)⟩
    · rintro ⟨ha, hb⟩ v (hv | hv)
      · exact ha v hv
      · exact hb v hv

/-! ## Claims on the secret builder and the stage lookup -/

theorem getCreateSecretFileCmd.loop_eq (args : List String) (m : SecretMap) :
    getCreateSecretFileCmd.loop args m = args ++ m.map fromLiteral := by
  induction m generalizing args with
  | nil => simp [getCreateSecretFileCmd.loop]
  | cons kv rest ih =>
    obtain ⟨k, v⟩ := kv
    simp [getCreateSecretFileCmd.loop, ih, fromLiteral]

theorem getCreateSecretFileCmd_eq (w : World) (secrets : SecretMap)
    (secretName namespaceName : String) (tr : List Effect) :
    getCreateSecretFileCmd w secrets secretName namespaceName tr =
      (.ret { Args := "kubectl" :: (["create", "secret", "generic", secretName, "-n",
          namespaceName, "--dry-run", "-o", "yaml"] ++
            (w.rangeOrder tr secrets).map fromLiteral) },
        tr ++ [.execCommand ("kubectl" :: (["create", "secret", "generic", secretName, "-n",
          namespaceName, "--dry-run", "-o", "yaml"] ++
            (w.rangeOrder tr secrets).map fromLiteral))]) := by
  simp only [getCreateSecretFileCmd, execCommand, getCreateSecretFileCmd.loop_eq]
  rfl

/-- C3: the command built by `getCreateSecretFileCmd` is `kubectl` with the
arguments `create secret generic <name> -n <namespace> --dry-run -o yaml`
followed by one argument `--from-literal=<key>=<value>` for each entry of the
map, in the order the map is visited (a rearrangement of its entries), and
nothing else: 9 arguments plus one for each key.  For the map
`password: s3cr3t`, the name `app-secret` and the namespace `ns1` the command
is `kubectl create secret generic app-secret -n ns1 --dry-run -o yaml
--from-literal=password=s3cr3t`. -/
theorem getCreateSecretFileCmd_args (w : World) (tr : List Effect) :
    (∀ (secrets : SecretMap) (secretName namespaceName : String),
      ∃ (visited : SecretMap) (cmd : Cmd) (tr' : List Effect),
        visited.Perm secrets ∧
        getCreateSecretFileCmd w secrets secretName namespaceName tr = (.ret cmd, tr') ∧
        cmd.Args = ["kubectl", "create", "secret", "generic", secretName, "-n",
          namespaceName, "--dry-run", "-o", "yaml"] ++
          visited.map (fun kv => "--from-literal=" ++ kv.1 ++ "=" ++ kv.2) ∧
        cmd.Args.tail.length = 9 + secrets.length) ∧
    (getCreateSecretFileCmd w [("password", "s3cr3t")] "app-secret" "ns1" tr).1 =
      .ret { Args := ["kubectl", "create", "secret", "generic", "app-secret", "-n", "ns1",
        "--dry-run", "-o", "yaml", "--from-literal=password=s3cr3t"] } := by
  constructor
  · intro secrets secretName namespaceName
    refine ⟨w.rangeOrder tr secrets, _, _, w.rangeOrder_perm tr secrets,
      getCreateSecretFileCmd_eq w secrets secretName namespaceName tr, ?_, ?_⟩
    · simp [fromLiteral]
    · simp [(w.rangeOrder_perm tr secrets).length_eq]
      omega
  · rw [getCreateSecretFileCmd_eq]
    have h := w.rangeOrder_perm tr [("password", "s3cr3t")]
    rw [List.perm_singleton] at h
    rw [h]
    simp [fromLiteral]

/-- C4: when `--config` is set and the name resolves to `cfg`, `handleConfig`
returns no error, the output path `cfg.BasePath + "/" + outPath` and the
certificate path `cfg.Cert`, whatever certificate was passed; when `--config`
is not set it leaves both paths as they are and does nothing else.  For the
stage `prod` with certificate `/certs/prod.pem` and base path `/out/prod` and
the output path `secret.yaml` the result is `/out/prod/secret.yaml` and
`/certs/prod.pem`. -/
theorem handleConfig_stage (w : World) (c : Context) (outPath certPath : String)
    (tr : List Effect) :
    (c.IsSet "config" = true →
      ∀ (cfg : StageConfiguration) (tr' : List Effect),
        getStageConfigurationByName w c (c.String "config") tr = (.ret (.ok cfg), tr') →
        handleConfig w c outPath certPath tr =
          (.ret (none, cfg.BasePath ++ "/" ++ outPath, cfg.Cert), tr')) ∧
    (c.IsSet "config" = false →
      handleConfig w c outPath certPath tr = (.ret (none, outPath, certPath), tr)) ∧
    (c.IsSet "config" = true →
      ∀ (tr' : List Effect),
        getStageConfigurationByName w c (c.String "config") tr =
          (.ret (.ok { Name := "prod", Cert := "/certs/prod.pem", BasePath := "/out/prod" }),
            tr') →
        handleConfig w c "secret.yaml" certPath tr =
          (.ret (none, "/out/prod/secret.yaml", "/certs/prod.pem"), tr')) := by
  refine ⟨?_, ?_, ?_⟩
  · intro hset cfg tr' hcfg
    simp only [handleConfig, hset, if_true]
    rw [Go.bind_ret _ _ _ _ _ hcfg]
    rfl
  · intro hset
    simp only [handleConfig, hset]
    rfl
  · intro hset tr' hcfg
    simp only [handleConfig, hset, if_true]
    rw [Go.bind_ret _ _ _ _ _ hcfg]
    rfl

/-- In the example world `--config prod --out secret.yaml --cert cli.pem`
resolves to the output path `/out/prod/secret.yaml` and the certificate
`/certs/prod.pem`; the certificate `cli.pem` is discarded. -/
theorem handleConfig_stage_witness :
    exampleStageContext.IsSet "config" = true ∧
    getStageConfigurationByName (exampleWorld none "" sealedOk) exampleStageContext
      (exampleStageContext.String "config") [] =
        (.ret (.ok { Name := "prod", Cert := "/certs/prod.pem", BasePath := "/out/prod" }),
          exampleLookupTrace) ∧
    handleConfig (exampleWorld none "" sealedOk) exampleStageContext
      "secret.yaml" "cli.pem" [] =
        (.ret (none, "/out/prod/secret.yaml", "/certs/prod.pem"), exampleLookupTrace) ∧
    examplePlainContext.IsSet "config" = false ∧
    handleConfig (exampleWorld none "" sealedOk) examplePlainContext "" "cli.pem" [] =
      (.ret (none, "", "cli.pem"), []) := by
  refine ⟨by decide, by decide, ?_, by decide, ?_⟩
  · exact (handleConfig_stage (exampleWorld none "" sealedOk) exampleStageContext
      "secret.yaml" "cli.pem" []).2.2 (by decide) exampleLookupTrace (by decide)
  · exact (handleConfig_stage (exampleWorld none "" sealedOk) examplePlainContext
      "" "cli.pem" []).2.1 (by decide)

/-! ## Claims on the order of the merge in the stage lookup -/

/-- C8, refuted as stated: with a stage `prod` in the global and in the local
configuration file, the stage lookup returns the global entry and not the
local one. -/
theorem getStageConfigurationByName_returns_global_entry :
    loadConfiguration exampleWorldBoth exampleStageContext [] =
      (.ret (.ok (exampleGlobal, exampleLocal)), exampleLoadBothTrace) ∧
    (∃ v ∈ exampleGlobal.Configs, v.Name = "prod") ∧
    (∃ v ∈ exampleLocal.Configs, v.Name = "prod") ∧
    exampleLocal.GetStageConfigByName "prod" =
      .ok { Name := "prod", Cert := "/local/prod.pem", BasePath := "/local/out" } ∧
    getStageConfigurationByName exampleWorldBoth exampleStageContext "prod" [] =
      (.ret (.ok { Name := "prod", Cert := "/certs/prod.pem", BasePath := "/out/prod" }),
        exampleLoadBothTrace) ∧
    (getStageConfigurationByName exampleWorldBoth exampleStageContext "prod" []).1 ≠
      .ret (exampleLocal.GetStageConfigByName "prod") := by
  decide

/-- C8, amended: in the stage lookup the local configuration is patched onto
the global one.  The list searched is the global entries followed by the local
entries, so a name that occurs in the global configuration resolves to the
global entry, and only a name absent from it resolves in the local one. -/
theorem getStageConfigurationByName_global_then_local (w : World) (c : Context)
    (configName : String) (tr tr' : List Effect) (g l : Configuration)
    (hload : loadConfiguration w c tr = (.ret (.ok (g, l)), tr')) :
    getStageConfigurationByName w c configName tr =
      (.ret (({ Configs := g.Configs ++ l.Configs } : Configuration).GetStageConfigByName
        configName), tr') ∧
    ((∃ v ∈ g.Configs, v.Name = configName) →
      getStageConfigurationByName w c configName tr =
        (.ret (g.GetStageConfigByName configName), tr')) ∧
    ((∀ v ∈ g.Configs, v.Name ≠ configName) →
      getStageConfigurationByName w c configName tr =
        (.ret (l.GetStageConfigByName configName), tr')) := by
  have hmain : getStageConfigurationByName w c configName tr =
      (.ret (({ Configs := g.Configs ++ l.Configs } : Configuration).GetStageConfigByName
        configName), tr') := by
    simp only [getStageConfigurationByName]
    rw [Go.bind_ret _ _ _ _ _ hload]
    rfl
  refine ⟨hmain, ?_, ?_⟩
  · intro h
    rw [hmain]
    simp only [Configuration.GetStageConfigByName]
    rw [GetStageConfigByName.loop_append_left configName g.Configs l.Configs h]
  · intro h
    rw [hmain]
    simp only [Configuration.GetStageConfigByName]
    rw [GetStageConfigByName.loop_append_right configName g.Configs l.Configs h]

/-- With `prod` in both files the amended statement gives the global entry. -/
theorem getStageConfigurationByName_global_then_local_witness :
    loadConfiguration exampleWorldBoth exampleStageContext [] =
      (.ret (.ok (exampleGlobal, exampleLocal)), exampleLoadBothTrace) ∧
    (∃ v ∈ exampleGlobal.Configs, v.Name = "prod") ∧
    getStageConfigurationByName exampleWorldBoth exampleStageContext "prod" [] =
      (.ret (exampleGlobal.GetStageConfigByName "prod"), exampleLoadBothTrace) :=
  ⟨by decide, by decide,
    (getStageConfigurationByName_global_then_local exampleWorldBoth exampleStageContext
      "prod" [] exampleLoadBothTrace exampleGlobal exampleLocal (by decide)).2.1 (by decide)⟩

/-! ## The parent directory of the output path -/

/-- A text without `/` has no last index of `/`. -/
theorem LastIndex.chars_of_not_mem (cs : List Char) (h : '/' ∉ cs) :
    LastIndex.chars ['/'] cs = -1 := by
  induction cs with
  | nil => simp [LastIndex.chars]
  | cons c cs ih =>
    have hc : c ≠ '/' := fun hc => h (hc ▸ List.mem_cons_self c cs)
    have hcs : '/' ∉ cs := fun hm => h (List.mem_cons_of_mem c hm)
    simp [LastIndex.chars, ih hcs, hc]

/-- The last index of `/` in `a ++ "/" ++ b`, where `b` has no `/`, is the length of `a`. -/
theorem LastIndex.chars_append (a b : List Char) (h : '/' ∉ b) :
    LastIndex.chars ['/'] (a ++ '/' :: b) = a.length := by
  induction a with
  | nil => simp [LastIndex.chars, LastIndex.chars_of_not_mem b h]
  | cons c a ih =>
    simp only [List.cons_append, LastIndex.chars, ih]
    simp
    omega

/-- Every output path without `/`, the empty path among them, makes
`ensureDirForFile` panic before any directory is asked for. -/
theorem ensureDirForFile_panics_of_no_separator (w : World) (file : String)
    (tr : List Effect) (h : '/' ∉ file.data) :
    ensureDirForFile w file tr = (.panic "slice bounds out of range", tr) := by
  have hi : LastIndex file "/" = -1 := LastIndex.chars_of_not_mem file.data h
  simp only [ensureDirForFile, hi]
  rfl

/-- For an output path `a/b` whose last segment `b` has no `/`, the directory
handed to `ensureDir` is `a`. -/
theorem ensureDirForFile_of_separator (w : World) (a b : List Char) (h : '/' ∉ b) :
    ensureDirForFile w ⟨a ++ '/' :: b⟩ = ensureDir w ⟨a⟩ := by
  have hi : LastIndex ⟨a ++ '/' :: b⟩ "/" = a.length := LastIndex.chars_append a b h
  funext tr
  simp only [ensureDirForFile, hi]
  have hs : sliceTo ⟨a ++ '/' :: b⟩ (a.length : Int) = pure ⟨a⟩ := by
    have hlen : (0 : Int) ≤ (a.length : Int) ∧
        (a.length : Int) ≤ (String.length ⟨a ++ '/' :: b⟩ : Nat) := by
      simp only [String.length, List.length_append, List.length_cons]
      omega
    simp only [sliceTo, hlen, and_self, if_true, Int.toNat_ofNat, List.take_left']
  rw [hs]
  rfl

/-- C9, at the failing inputs: for the output paths `out.yaml` and `""`
the index of the last `/` is `-1` and `ensureDirForFile` panics on the slice
`file[:-1]` instead of deriving a directory; no request to create a directory
is made. -/
theorem ensureDirForFile_panics_on_bare_name (w : World) (tr : List Effect) :
    LastIndex "out.yaml" "/" = -1 ∧
    ensureDirForFile w "out.yaml" tr = (.panic "slice bounds out of range", tr) ∧
    LastIndex "" "/" = -1 ∧
    ensureDirForFile w "" tr = (.panic "slice bounds out of range", tr) :=
  ⟨by decide, ensureDirForFile_panics_of_no_separator w "out.yaml" tr (by decide),
    by decide, ensureDirForFile_panics_of_no_separator w "" tr (by decide)⟩

/-! ## The actions `Yaml` and `File` -/

theorem handleConfig_of_unset (w : World) (c : Context) (outPath certPath : String)
    (tr : List Effect) (hset : c.IsSet "config" = false) :
    handleConfig w c outPath certPath tr = (.ret (none, outPath, certPath), tr) := by
  simp only [handleConfig, hset]
  rfl

theorem handleConfig_of_resolved (w : World) (c : Context) (outPath certPath : String)
    (tr tr' : List Effect) (cfg : StageConfiguration) (hset : c.IsSet "config" = true)
    (hcfg : getStageConfigurationByName w c (c.String "config") tr = (.ret (.ok cfg), tr')) :
    handleConfig w c outPath certPath tr =
      (.ret (none, cfg.BasePath ++ "/" ++ outPath, cfg.Cert), tr') := by
  simp only [handleConfig, hset, if_true]
  rw [Go.bind_ret _ _ _ _ _ hcfg]
  rfl

/-- C6, on the code: without `--config`, and with an output path that has no
`/` (the empty path of an invocation without `--out` among them), the actions
`Yaml` and `File` on a non-empty valid input file read the file and then
panic in `ensureDirForFile`: no command is built or run and nothing is
printed. -/
theorem Yaml_File_panic_without_out (w : World) (c : Context) (tr : List Effect)
    (file : String) (secrets : SecretMap)
    (hset : c.IsSet "config" = false)
    (hout : '/' ∉ (c.String "out").data)
    (hread : w.readFile tr (c.String "file") = .ok file)
    (hlen : len file ≠ 0)
    (hparse : w.unmarshalSecrets file = .ok secrets) :
    Yaml w c tr =
      (.panic "slice bounds out of range", tr ++ [.readFile (c.String "file")]) ∧
    File w c tr =
      (.panic "slice bounds out of range", tr ++ [.readFile (c.String "file")]) := by
  have hlen' : (len file == 0) = false := by simpa using hlen
  constructor
  · simp only [Yaml]
    rw [Go.bind_ret _ _ _ _ _ (handleConfig_of_unset w c _ _ tr hset)]
    simp only []
    rw [Go.bind_ret _ _ _ _ _ (request_eq _ _ tr)]
    simp only [hread, hlen', hparse, Bool.false_eq_true, if_false]
    rw [Go.bind_panic _ _ _ _ _ (ensureDirForFile_panics_of_no_separator w _ _ hout)]
  · simp only [File]
    rw [Go.bind_ret _ _ _ _ _ (handleConfig_of_unset w c _ _ tr hset)]
    simp only []
    rw [Go.bind_ret _ _ _ _ _ (request_eq _ _ tr)]
    simp only [hread, hlen', Bool.false_eq_true, if_false]
    rw [Go.bind_panic _ _ _ _ _ (ensureDirForFile_panics_of_no_separator w _ _ hout)]

/-- The scenario of the specification: input `password: s3cr3t`, namespace
`ns1`, secret name `app-secret`, no certificate, no stage and no `--out`.
Both actions panic after reading the input file. -/
theorem Yaml_File_panic_without_out_witness :
    Yaml (exampleWorld none "apiVersion: v1\n" sealedOk) examplePlainContext [] =
      (.panic "slice bounds out of range", [.readFile "secrets.yaml"]) ∧
    File (exampleWorld none "apiVersion: v1\n" sealedOk) exampleFileContext [] =
      (.panic "slice bounds out of range", [.readFile "secrets.yaml"]) :=
  ⟨(Yaml_File_panic_without_out (exampleWorld none "apiVersion: v1\n" sealedOk)
      examplePlainContext [] "password: s3cr3t\n" [("password", "s3cr3t")]
      (by decide) (by decide) (by decide) (by decide) (by decide)).1,
   (Yaml_File_panic_without_out (exampleWorld none "apiVersion: v1\n" sealedOk)
      exampleFileContext [] "password: s3cr3t\n" [("password", "s3cr3t")]
      (by decide) (by decide) (by decide) (by decide) (by decide)).2⟩

/-! ## The requests made by the stage lookup -/

theorem OnlyRequests.pure (p : Effect → Bool) {α : Type} (a : α) :
    OnlyRequests p (Pure.pure a : Go α) := by
  intro tr
  exact ⟨[], by simp [Go.pure_eq], by simp⟩

theorem OnlyRequests.goPanic (p : Effect → Bool) {α : Type} (msg : String) :
    OnlyRequests p (Goseal.goPanic msg : Go α) := by
  intro tr
  exact ⟨[], by simp [Goseal.goPanic], by simp⟩

theorem OnlyRequests.request (p : Effect → Bool) {α : Type} (e : Effect)
    (answer : List Effect → α) (h : p e = true) :
    OnlyRequests p (Goseal.request e answer) := by
  intro tr
  exact ⟨[e], by simp [request_eq], by simpa using h⟩

theorem OnlyRequests.bind (p : Effect → Bool) {α β : Type} (m : Go α) (f : α → Go β)
    (hm : OnlyRequests p m) (hf : ∀ a, OnlyRequests p (f a)) :
    OnlyRequests p (m >>= f) := by
  intro tr
  obtain ⟨ext, hext, hp⟩ := hm tr
  rw [Go.bind_eq]
  rcases hmt : m tr with ⟨o, tr'⟩
  rw [hmt] at hext
  simp only at hext
  subst hext
  cases o with
  | ret a =>
    obtain ⟨ext2, hext2, hp2⟩ := hf a (tr ++ ext)
    refine ⟨ext ++ ext2, by simp [hext2], ?_⟩
    intro e he
    rcases List.mem_append.mp he with he | he
    · exact hp e he
    · exact hp2 e he
  | panic msg => exact ⟨ext, rfl, hp⟩

theorem ensureDir_onlyRequests (w : World) (dirName : String) :
    OnlyRequests Effect.isConfigLoad (ensureDir w dirName) := by
  unfold ensureDir
  refine OnlyRequests.bind _ _ _ (OnlyRequests.request _ _ _ rfl) ?_
  intro r
  split
  · exact OnlyRequests.pure _ _
  · split
    · refine OnlyRequests.bind _ _ _ (OnlyRequests.request _ _ _ rfl) ?_
      intro r2
      split
      · exact OnlyRequests.pure _ _
      · split <;> exact OnlyRequests.pure _ _
    · exact OnlyRequests.pure _ _

theorem loadConfigFile_onlyRequests (w : World) (path : String) :
    OnlyRequests Effect.isConfigLoad (loadConfigFile w path) := by
  unfold loadConfigFile
  refine OnlyRequests.bind _ _ _ (ensureDir_onlyRequests w path) ?_
  intro r
  split
  · exact OnlyRequests.pure _ _
  · refine OnlyRequests.bind _ _ _ (OnlyRequests.request _ _ _ rfl) ?_
    intro info
    dsimp only
    split
    · exact OnlyRequests.pure _ _
    · split
      · exact OnlyRequests.goPanic _ _
      · split
        · exact OnlyRequests.pure _ _
        · refine OnlyRequests.bind _ _ _ (OnlyRequests.request _ _ _ rfl) ?_
          intro r3
          split
          · exact OnlyRequests.pure _ _
          · split <;> exact OnlyRequests.pure _ _

theorem load_onlyRequests (ps : Go (Except GoError String)) (w : World)
    (hps : OnlyRequests Effect.isConfigLoad ps) :
    OnlyRequests Effect.isConfigLoad (load ps w) := by
  unfold load
  refine OnlyRequests.bind _ _ _ hps ?_
  intro r
  split
  · exact OnlyRequests.pure _ _
  · refine OnlyRequests.bind _ _ _ (loadConfigFile_onlyRequests w _) ?_
    intro r2
    split <;> exact OnlyRequests.pure _ _

theorem getGlobalConfigPath_onlyRequests (w : World) :
    OnlyRequests Effect.isConfigLoad (getGlobalConfigPath w) := by
  unfold getGlobalConfigPath
  refine OnlyRequests.bind _ _ _ (OnlyRequests.request _ _ _ rfl) ?_
  intro r
  split <;> exact OnlyRequests.pure _ _

theorem loadConfiguration_onlyRequests (w : World) (c : Context) :
    OnlyRequests Effect.isConfigLoad (loadConfiguration w c) := by
  unfold loadConfiguration
  refine OnlyRequests.bind _ _ _
    (load_onlyRequests _ w (getGlobalConfigPath_onlyRequests w)) ?_
  intro r
  split
  · exact OnlyRequests.pure _ _
  · refine OnlyRequests.bind _ _ _
      (load_onlyRequests _ w (OnlyRequests.request _ _ _ rfl)) ?_
    intro r2
    split <;> exact OnlyRequests.pure _ _

theorem getStageConfigurationByName_onlyRequests (w : World) (c : Context) (n : String) :
    OnlyRequests Effect.isConfigLoad (getStageConfigurationByName w c n) := by
  unfold getStageConfigurationByName
  refine OnlyRequests.bind _ _ _ (loadConfiguration_onlyRequests w c) ?_
  intro r
  split
  · exact OnlyRequests.pure _ _
  · split <;> exact OnlyRequests.pure _ _

/-- The stage lookup in `handleConfig` only loads the configuration files: it
builds or runs no command, and it writes and prints nothing. -/
theorem handleConfig_onlyRequests (w : World) (c : Context) (outPath certPath : String) :
    OnlyRequests Effect.isConfigLoad (handleConfig w c outPath certPath) := by
  unfold handleConfig
  split
  · refine OnlyRequests.bind _ _ _ (getStageConfigurationByName_onlyRequests w c _) ?_
    intro r
    split <;> exact OnlyRequests.pure _ _
  · exact OnlyRequests.pure _ _

/-! ## Claims on the empty input file -/

/-- C5, refuted as stated: with `--config nosuch`, a name no configuration
file defines, and the readable, empty input file `empty.yaml`, the actions
`Yaml` and `File` return the error "not found" of the stage lookup and
not `ErrEmptyFile`; the input file is not even read. -/
theorem Yaml_File_empty_file_unresolved_stage :
    (∀ tr, (exampleWorld none "" sealedOk).readFile tr "empty.yaml" = .ok "") ∧
    len "" = 0 ∧
    exampleMissingStageContext.String "file" = "empty.yaml" ∧
    Yaml (exampleWorld none "" sealedOk) exampleMissingStageContext [] =
      (.ret (some (.errorsNew "not found")), exampleLookupTrace) ∧
    File (exampleWorld none "" sealedOk) exampleMissingStageContext [] =
      (.ret (some (.errorsNew "not found")), exampleLookupTrace) ∧
    GoError.errorsNew "not found" ≠ ErrEmptyFile := by
  refine ⟨fun tr => rfl, by decide, by decide, by decide, by decide, by decide⟩

/-- C5, amended: whenever `handleConfig` returns no error (no `--config`, or a
stage that resolves) and the input file is readable and has zero length, the
actions `Yaml` and `File` return `ErrEmptyFile`.  The requests made are those
of `handleConfig`, which only loads the configuration files (none at all
without `--config`), followed by the read of the input file: no command is
built or run, `ensureDirForFile` is not reached, nothing is written or
printed. -/
theorem Yaml_File_empty_file (w : World) (c : Context) (tr tr1 : List Effect)
    (outPath certPath file : String)
    (hcfg : handleConfig w c (c.String "out") (c.String "cert") tr =
      (.ret (none, outPath, certPath), tr1))
    (hread : w.readFile tr1 (c.String "file") = .ok file)
    (hlen : len file = 0) :
    Yaml w c tr = (.ret (some ErrEmptyFile), tr1 ++ [.readFile (c.String "file")]) ∧
    File w c tr = (.ret (some ErrEmptyFile), tr1 ++ [.readFile (c.String "file")]) ∧
    (∃ ext, tr1 = tr ++ ext ∧ ∀ e ∈ ext, e.isConfigLoad = true) ∧
    (c.IsSet "config" = false → tr1 = tr) := by
  have hlen' : (len file == 0) = true := by simpa using hlen
  refine ⟨?_, ?_, ?_, ?_⟩
  · simp only [Yaml]
    rw [Go.bind_ret _ _ _ _ _ hcfg]
    simp only []
    rw [Go.bind_ret _ _ _ _ _ (request_eq _ _ tr1)]
    simp only [hread, hlen', if_true]
    rfl
  · simp only [File]
    rw [Go.bind_ret _ _ _ _ _ hcfg]
    simp only []
    rw [Go.bind_ret _ _ _ _ _ (request_eq _ _ tr1)]
    simp only [hread, hlen', if_true]
    rfl
  · obtain ⟨ext, hext, hp⟩ := handleConfig_onlyRequests w c (c.String "out") (c.String "cert") tr
    rw [hcfg] at hext
    exact ⟨ext, hext, hp⟩
  · intro hset
    have h := handleConfig_of_unset w c (c.String "out") (c.String "cert") tr hset
    rw [hcfg] at h
    exact (Prod.mk.inj h).2

/-- The empty input file with `--config prod --out secret.yaml` in the example
world: both actions return `ErrEmptyFile` after the stage lookup and the read. -/
theorem Yaml_File_empty_file_witness :
    handleConfig (exampleWorld none "" sealedOk) exampleEmptyFileContext
      (exampleEmptyFileContext.String "out") (exampleEmptyFileContext.String "cert") [] =
        (.ret (none, "/out/prod/secret.yaml", "/certs/prod.pem"), exampleLookupTrace) ∧
    Yaml (exampleWorld none "" sealedOk) exampleEmptyFileContext [] =
      (.ret (some ErrEmptyFile), exampleLookupTrace ++ [.readFile "empty.yaml"]) ∧
    File (exampleWorld none "" sealedOk) exampleEmptyFileContext [] =
      (.ret (some ErrEmptyFile), exampleLookupTrace ++ [.readFile "empty.yaml"]) :=
  have h := Yaml_File_empty_file (exampleWorld none "" sealedOk) exampleEmptyFileContext []
    exampleLookupTrace "/out/prod/secret.yaml" "/certs/prod.pem" ""
    (by decide) (by decide) (by decide)
  ⟨by decide, h.1, h.2.1⟩

theorem len_eq_zero_iff (s : String) : len s = 0 ↔ s = "" := by
  obtain ⟨cs⟩ := s
  cases cs with
  | nil => simp [len, String.utf8ByteSize, String.utf8ByteSize.go]
  | cons c cs =>
    have hc := Char.utf8Size_pos c
    simp only [len, String.utf8ByteSize, String.utf8ByteSize.go]
    constructor
    · intro h; omega
    · intro h
      have := congrArg String.data h
      simp at this

theorem Join_kubeseal (certPath : String) :
    Join ["kubeseal", "--format", "yaml", "--cert", certPath] " " =
      "kubeseal --format yaml --cert " ++ certPath := by
  simp only [Join]
  apply String.ext
  simp only [String.data_append]
  rfl
/-! ## Claims on the sealing pipeline -/

theorem execCommand_eq (name : String) (arg : List String) (tr : List Effect) :
    execCommand name arg tr = (.ret { Args := name :: arg }, tr ++ [.execCommand (name :: arg)]) :=
  rfl

/-- A command that ends without error makes `runCommand` return no error. -/
theorem runCommand_of_success (w : World) (cmd : Cmd) (tr : List Effect)
    (h : (w.run tr cmd.Args).err = none) :
    runCommand w cmd tr = (.ret (none, (w.run tr cmd.Args).stdout), tr ++ [.run cmd.Args]) := by
  simp only [runCommand]
  rw [Go.bind_ret _ _ _ _ _ (request_eq _ _ tr)]
  simp only [h]
  rfl

/-- The text of `getErrText` for the sealing command. -/
theorem getErrText_kubeseal (err : GoError) (certPath stdErr : String) :
    getErrText err ["kubeseal", "--format", "yaml", "--cert", certPath] stdErr =
      "command 'kubeseal --format yaml --cert " ++ certPath ++ "' failed: " ++ err.Error ++
        (if TrimSpace stdErr = "" then "" else "\n" ++ TrimSpace stdErr) := by
  have hpos : len (TrimSpace stdErr) > 0 ↔ ¬ TrimSpace stdErr = "" := by
    rw [← len_eq_zero_iff]
    omega
  simp only [getErrText, Join_kubeseal, hpos]
  by_cases h : TrimSpace stdErr = ""
  · simp only [h, not_true_eq_false, if_false, if_true]
    apply String.ext
    simp [String.data_append]
  · simp only [h, not_false_eq_true, if_true, if_false]
    apply String.ext
    simp [String.data_append]

/-- C7: in sealed mode, when the pipe is set up, the sealing process starts,
the secret-generation command ends without error and waiting for the sealing
process reports the failure `err`, `sealSecret` returns an error and neither
writes nor prints.  The text of the error is `getErrText(err, args, stderr)`
for the arguments and the captured standard error of the sealing command:
`command 'kubeseal --format yaml --cert <certPath>' failed: <err>`, followed
by a newline and the trimmed standard error when that is not empty. -/
theorem sealSecret_wait_failure (w : World) (secrets : SecretMap)
    (secretName namespaceName certPath outPath : String) (tr tr1 : List Effect)
    (kubectl : Cmd) (res : ProcResult) (err : GoError)
    (hcmd : getCreateSecretFileCmd w secrets secretName namespaceName tr = (.ret kubectl, tr1))
    (hpipe : w.stdoutPipe
      (tr1 ++ [.execCommand ["kubeseal", "--format", "yaml", "--cert", certPath]])
      kubectl.Args = none)
    (hstart : w.start
      (tr1 ++ [.execCommand ["kubeseal", "--format", "yaml", "--cert", certPath]] ++
        [.stdoutPipe kubectl.Args])
      ["kubeseal", "--format", "yaml", "--cert", certPath] = none)
    (hrun : (w.run
      (tr1 ++ [.execCommand ["kubeseal", "--format", "yaml", "--cert", certPath]] ++
        [.stdoutPipe kubectl.Args] ++
        [.start ["kubeseal", "--format", "yaml", "--cert", certPath]])
      kubectl.Args).err = none)
    (hwait : w.wait
      (tr1 ++ [.execCommand ["kubeseal", "--format", "yaml", "--cert", certPath]] ++
        [.stdoutPipe kubectl.Args] ++
        [.start ["kubeseal", "--format", "yaml", "--cert", certPath]] ++
        [.run kubectl.Args])
      ["kubeseal", "--format", "yaml", "--cert", certPath] = res)
    (herr : res.err = some err) :
    sealSecret w secrets secretName namespaceName certPath outPath tr =
      (.ret (some (.errorsNew
          (getErrText err ["kubeseal", "--format", "yaml", "--cert", certPath] res.stderr))),
        tr1 ++ [.execCommand ["kubeseal", "--format", "yaml", "--cert", certPath]] ++
          [.stdoutPipe kubectl.Args] ++
          [.start ["kubeseal", "--format", "yaml", "--cert", certPath]] ++
          [.run kubectl.Args] ++
          [.wait ["kubeseal", "--format", "yaml", "--cert", certPath]]) ∧
    getErrText err ["kubeseal", "--format", "yaml", "--cert", certPath] res.stderr =
      "command 'kubeseal --format yaml --cert " ++ certPath ++ "' failed: " ++ err.Error ++
        (if TrimSpace res.stderr = "" then "" else "\n" ++ TrimSpace res.stderr) ∧
    tr1 = tr ++ [.execCommand kubectl.Args] ∧
    (∀ e ∈ [Effect.execCommand kubectl.Args,
        .execCommand ["kubeseal", "--format", "yaml", "--cert", certPath],
        .stdoutPipe kubectl.Args,
        .start ["kubeseal", "--format", "yaml", "--cert", certPath],
        .run kubectl.Args,
        .wait ["kubeseal", "--format", "yaml", "--cert", certPath]], e.isOutput = false) := by
  refine ⟨?_, getErrText_kubeseal err certPath res.stderr, ?_, ?_⟩
  · simp only [sealSecret]
    rw [Go.bind_ret _ _ _ _ _ hcmd]
    rw [Go.bind_ret _ _ _ _ _ (execCommand_eq _ _ tr1)]
    rw [Go.bind_ret _ _ _ _ _ (request_eq _ _ _)]
    simp only [hpipe]
    rw [Go.bind_ret _ _ _ _ _ (request_eq _ _ _)]
    simp only [hstart]
    rw [Go.bind_ret _ _ _ _ _ (runCommand_of_success w kubectl _ hrun)]
    simp only []
    rw [Go.bind_ret _ _ _ _ _ (request_eq _ _ _)]
    simp only [hwait, herr]
    rfl
  · rw [getCreateSecretFileCmd_eq] at hcmd
    have h1 := (Prod.mk.inj hcmd).1
    have h2 := (Prod.mk.inj hcmd).2
    injection h1 with h1
    rw [← h2, ← h1]
  · intro e he
    simp only [List.mem_cons, List.mem_singleton, List.not_mem_nil, or_false] at he
    rcases he with rfl | rfl | rfl | rfl | rfl | rfl <;> rfl

/-- The example world with a failing sealing process: the error names the
command and carries the trimmed standard error. -/
theorem sealSecret_wait_failure_witness :
    sealSecret (exampleWorld none "apiVersion: v1\n" sealedFailed) [("password", "s3cr3t")]
      "app-secret" "ns1" "cert.pem" "out/sealed.yaml" [] =
      (.ret (some (.errorsNew ("command 'kubeseal --format yaml --cert cert.pem' failed: " ++
          "exit status 1\nerror: cannot read certificate"))),
        [.execCommand ["kubectl", "create", "secret", "generic", "app-secret", "-n", "ns1",
            "--dry-run", "-o", "yaml", "--from-literal=password=s3cr3t"],
          .execCommand ["kubeseal", "--format", "yaml", "--cert", "cert.pem"],
          .stdoutPipe ["kubectl", "create", "secret", "generic", "app-secret", "-n", "ns1",
            "--dry-run", "-o", "yaml", "--from-literal=password=s3cr3t"],
          .start ["kubeseal", "--format", "yaml", "--cert", "cert.pem"],
          .run ["kubectl", "create", "secret", "generic", "app-secret", "-n", "ns1",
            "--dry-run", "-o", "yaml", "--from-literal=password=s3cr3t"],
          .wait ["kubeseal", "--format", "yaml", "--cert", "cert.pem"]]) := by
  have h := (sealSecret_wait_failure (exampleWorld none "apiVersion: v1\n" sealedFailed)
    [("password", "s3cr3t")] "app-secret" "ns1" "cert.pem" "out/sealed.yaml" []
    [.execCommand ["kubectl", "create", "secret", "generic", "app-secret", "-n", "ns1",
      "--dry-run", "-o", "yaml", "--from-literal=password=s3cr3t"]]
    { Args := ["kubectl", "create", "secret", "generic", "app-secret", "-n", "ns1",
      "--dry-run", "-o", "yaml", "--from-literal=password=s3cr3t"] }
    sealedFailed (.foreign "exit status 1")
    (by decide) (by decide) (by decide) (by decide) (by decide) (by decide)).1
  rw [h]
  decide

/-! ## Supporting facts: what the neighbouring code does -/

/-- With an empty output path `createSecret` itself runs the command and, when
it ends without error, prints its standard output and returns no error. -/
theorem createSecret_prints_without_out (w : World) (secrets : SecretMap)
    (secretName namespaceName : String) (tr tr1 : List Effect) (kubectl : Cmd)
    (hcmd : getCreateSecretFileCmd w secrets secretName namespaceName tr = (.ret kubectl, tr1))
    (hrun : (w.run tr1 kubectl.Args).err = none) :
    createSecret w secrets secretName namespaceName "" tr =
      (.ret none, tr1 ++ [.run kubectl.Args] ++
        [.fmtPrintln (w.run tr1 kubectl.Args).stdout]) := by
  simp only [createSecret]
  rw [Go.bind_ret _ _ _ _ _ hcmd]
  rw [Go.bind_ret _ _ _ _ _ (runCommand_of_success w kubectl _ hrun)]
  simp only [emitOutput, if_true]
  rw [Go.bind_ret _ _ _ _ _ (request_eq _ _ _)]
  rfl

/-- With `--global`, `PrintConfig` prints the global entries followed by the
local ones: the same order of merging as in the stage lookup. -/
theorem PrintConfig_global_then_local (w : World) (c : Context) (tr tr' : List Effect)
    (g l : Configuration) (hset : c.IsSet "global" = true)
    (hload : loadConfiguration w c tr = (.ret (.ok (g, l)), tr')) :
    PrintConfig w c tr =
      (PrintConfig.loop 0 (g.Configs ++ l.Configs) >>= fun _ => pure none) tr' := by
  simp only [PrintConfig]
  rw [Go.bind_ret _ _ _ _ _ hload]
  simp only [hset, if_true]
  rfl

/-- The scenario `--cert cert.pem --out out.yaml`: the output path has no `/`,
so `Yaml` panics before either process is started and `out.yaml` is not
written. -/
theorem Yaml_out_bare_name_panics :
    Yaml (exampleWorld none "apiVersion: v1\n" sealedOk) exampleSealContext [] =
      (.panic "slice bounds out of range", [.readFile "secrets.yaml"]) := by
  decide

/-- With an output path that has a directory part, the same scenario runs
both processes and writes the output of the sealing process. -/
theorem Yaml_out_with_directory_seals :
    Yaml (exampleWorld none "apiVersion: v1\n" sealedOk)
      { flags := [("namespace", "ns1"), ("file", "secrets.yaml"),
          ("secret-name", "app-secret"), ("cert", "cert.pem"), ("out", "out/sealed.yaml")] }
      [] =
      (.ret none,
        [.readFile "secrets.yaml", .mkdirAll "out",
          .execCommand ["kubectl", "create", "secret", "generic", "app-secret", "-n", "ns1",
            "--dry-run", "-o", "yaml", "--from-literal=password=s3cr3t"],
          .execCommand ["kubeseal", "--format", "yaml", "--cert", "cert.pem"],
          .stdoutPipe ["kubectl", "create", "secret", "generic", "app-secret", "-n", "ns1",
            "--dry-run", "-o", "yaml", "--from-literal=password=s3cr3t"],
          .start ["kubeseal", "--format", "yaml", "--cert", "cert.pem"],
          .run ["kubectl", "create", "secret", "generic", "app-secret", "-n", "ns1",
            "--dry-run", "-o", "yaml", "--from-literal=password=s3cr3t"],
          .wait ["kubeseal", "--format", "yaml", "--cert", "cert.pem"],
          .writeFile "out/sealed.yaml" "kind: SealedSecret\n"]) := by
  decide

end Goseal
